import Mathlib

/-!
Verification development for the occupation-data MCP function app
(`src/function_app.py`): a shallow embedding of the `OccupationDataCache`
load/read/invalidate protocol and of the faceted query handlers built on it,
followed by theorems about the embedded definitions.

JSON values are modelled by the inductive type `Json`; Python dicts appear as
ordered association lists (insertion order preserved, keys unique in any dict
produced by `json.loads`).  Numbers are modelled as integers: no claim touches
non-integral numerics.
-/

namespace NtgOcc

/-- JSON values as produced by Python's `json.loads`. -/
inductive Json where
  | null
  | bool (b : Bool)
  | num (n : Int)
  | str (s : String)
  | arr (elems : List Json)
  | obj (fields : List (String × Json))

mutual

/-- Structural equality of JSON values is decidable. -/
def Json.decEq : (a b : Json) → Decidable (a = b)
  | .null, .null => .isTrue rfl
  | .bool a, .bool b =>
      if h : a = b then .isTrue (by rw [h])
      else .isFalse (fun hh => h (by injection hh))
  | .num a, .num b =>
      if h : a = b then .isTrue (by rw [h])
      else .isFalse (fun hh => h (by injection hh))
  | .str a, .str b =>
      if h : a = b then .isTrue (by rw [h])
      else .isFalse (fun hh => h (by injection hh))
  | .arr a, .arr b =>
      match Json.decEqList a b with
      | .isTrue h => .isTrue (by rw [h])
      | .isFalse h => .isFalse (fun hh => h (by injection hh))
  | .obj a, .obj b =>
      match Json.decEqFields a b with
      | .isTrue h => .isTrue (by rw [h])
      | .isFalse h => .isFalse (fun hh => h (by injection hh))
  | .null, .bool _ | .null, .num _ | .null, .str _ | .null, .arr _
  | .null, .obj _ | .bool _, .null | .bool _, .num _ | .bool _, .str _
  | .bool _, .arr _ | .bool _, .obj _ | .num _, .null | .num _, .bool _
  | .num _, .str _ | .num _, .arr _ | .num _, .obj _ | .str _, .null
  | .str _, .bool _ | .str _, .num _ | .str _, .arr _ | .str _, .obj _
  | .arr _, .null | .arr _, .bool _ | .arr _, .num _ | .arr _, .str _
  | .arr _, .obj _ | .obj _, .null | .obj _, .bool _ | .obj _, .num _
  | .obj _, .str _ | .obj _, .arr _ => .isFalse nofun

/-- Decidable equality for lists of JSON values. -/
def Json.decEqList : (a b : List Json) → Decidable (a = b)
  | [], [] => .isTrue rfl
  | [], _ :: _ => .isFalse nofun
  | _ :: _, [] => .isFalse nofun
  | x :: xs, y :: ys =>
      match Json.decEq x y, Json.decEqList xs ys with
      | .isTrue h1, .isTrue h2 => .isTrue (by rw [h1, h2])
      | .isFalse h1, _ => .isFalse (fun hh => h1 (by injection hh))
      | _, .isFalse h2 => .isFalse (fun hh => h2 (by injection hh))

/-- Decidable equality for JSON object field lists. -/
def Json.decEqFields : (a b : List (String × Json)) → Decidable (a = b)
  | [], [] => .isTrue rfl
  | [], _ :: _ => .isFalse nofun
  | _ :: _, [] => .isFalse nofun
  | (k, x) :: xs, (l, y) :: ys =>
      if hk : k = l then
        match Json.decEq x y, Json.decEqFields xs ys with
        | .isTrue h1, .isTrue h2 => .isTrue (by rw [hk, h1, h2])
        | .isFalse h1, _ => .isFalse (fun hh => by
            injection hh with hp ht; exact h1 (congrArg Prod.snd hp))
        | _, .isFalse h2 => .isFalse (fun hh => by
            injection hh with hp ht; exact h2 ht)
      else .isFalse (fun hh => by
        injection hh with hp ht; exact hk (congrArg Prod.fst hp))

end

instance : DecidableEq Json := Json.decEq

namespace Json

/-- Python dict key lookup (`record.get(k)`), returning `none` when absent.
Dicts built by `json.loads` have unique keys, so first-match lookup agrees
with Python. -/
def get? (j : Json) (k : String) : Option Json :=
  match j with
  | obj fields => fields.lookup k
  | _ => none

/-- Python `record.get(k, default)`. -/
def getD (j : Json) (k : String) (d : Json) : Json :=
  (j.get? k).getD d

/-- Python truthiness of a JSON value (`if x:`). -/
def truthy : Json → Bool
  | null => false
  | bool b => b
  | num n => n != 0
  | str s => s != ""
  | arr l => !l.isEmpty
  | obj f => !f.isEmpty

/-- `isinstance(x, dict)`. -/
def isObj : Json → Bool
  | obj _ => true
  | _ => false

/-- `isinstance(x, list)`. -/
def isArr : Json → Bool
  | arr _ => true
  | _ => false

/-- The element list of a JSON array, `[]` for any non-array. -/
def arrElems : Json → List Json
  | arr l => l
  | _ => []

/-- `isinstance(data, dict) and "error" in data`: the error-response check
every facet performs on the value returned by the cache. -/
def isErrorDict : Json → Bool
  | obj fields => fields.any (fun p => p.1 == "error")
  | _ => false

end Json

/-- The Python hash/equality class of a hashable value.  Among the JSON
types: `None`, numbers and strings are hashable; `bool` is a subtype of
`int` in Python, so `True == 1` and `False == 0` share a class with the
corresponding number; lists and dicts are unhashable. -/
inductive PyKey where
  | pynull
  | pyint (n : Int)
  | pystr (s : String)
deriving DecidableEq

/-- The Python hash/equality key of a JSON value: `none` for an unhashable
value (list, dict), for which Python's `set` insertion and dict-membership
tests raise `TypeError`. -/
def Json.hashKey : Json → Option PyKey
  | .null => some .pynull
  | .bool b => some (.pyint (if b then 1 else 0))
  | .num n => some (.pyint n)
  | .str s => some (.pystr s)
  | .arr _ => none
  | .obj _ => none

/-- Whether a key is of Python's numeric (int/bool) kind. -/
def PyKey.isInt : PyKey → Bool
  | .pyint _ => true
  | _ => false

/-- Whether a key is of Python's string kind. -/
def PyKey.isStr : PyKey → Bool
  | .pystr _ => true
  | _ => false

/-- The numeric value of a numeric key (`0` otherwise). -/
def PyKey.intVal : PyKey → Int
  | .pyint n => n
  | _ => 0

/-- The string value of a string key (`""` otherwise). -/
def PyKey.strVal : PyKey → String
  | .pystr s => s
  | _ => ""

/-- The mutable state of `OccupationDataCache`: `_occupation_data` (a Python
dict, modelled as an insertion-ordered association list) and `_is_loaded`. -/
structure CacheState where
  data : List (String × Json)
  isLoaded : Bool
deriving DecidableEq

/-- The fresh cache built in `__new__`: empty dict, not loaded. -/
def CacheState.initial : CacheState := ⟨[], false⟩

/-- Behaviour of the blob store as seen by one load:
`unconfigured` — `_get_blob_client` returns `None` (no storage settings);
`unreachable` — listing the `occupation` container raises;
`available blobs fetch` — listing yields `blobs` in order, and downloading
blob `b` yields `fetch b` (`none` models a download or JSON-parse failure
for that one blob). -/
inductive StoreBehavior where
  | unconfigured
  | unreachable
  | available (blobs : List String) (fetch : String → Option Json)

/-- `blob.name.endswith(".json")`, over the code-point sequence (Python
strings are code-point sequences): the last five characters are `.json`. -/
def endsWithJson (s : String) : Bool :=
  decide (s.data.drop (s.data.length - 5) = ".json".data)

/-- `blob.name[:-5]`: drop the last five code points (the `.json` suffix). -/
def stripJson (s : String) : String :=
  String.mk (s.data.take (s.data.length - 5))

/-- Python dict assignment `d[k] = v`: overwrite in place if the key exists,
otherwise append (insertion order preserved). -/
def dictInsert (d : List (String × Json)) (k : String) (v : Json) :
    List (String × Json) :=
  if d.any (fun p => p.1 == k) then
    d.map (fun p => if p.1 = k then (k, v) else p)
  else d ++ [(k, v)]

/-- The blob loop of `_load_all_occupations` (lines 99–119): walk the listing,
break once `file_count >= 20`, skip names not ending in `.json`, attempt a
download+parse for each remaining name (a failure is logged and skipped,
`file_count` unchanged), and on success store the parsed value under the name
with `.json` stripped.  Returns the final dict together with the names for
which a download was attempted, for reasoning about which blobs get fetched. -/
def loadLoop (fetch : String → Option Json) :
    List String → List (String × Json) → Nat →
    List (String × Json) × List String
  | [], data, _ => (data, [])
  | b :: rest, data, fileCount =>
    if fileCount ≥ 20 then (data, [])
    else if endsWithJson b then
      match fetch b with
      | some v =>
          let r := loadLoop fetch rest (dictInsert data (stripJson b) v)
            (fileCount + 1)
          (r.1, b :: r.2)
      | none =>
          let r := loadLoop fetch rest data fileCount
          (r.1, b :: r.2)
    else loadLoop fetch rest data fileCount

/-- `_load_all_occupations`: no-op if already loaded (double-checked under the
lock; sequentially a single check); with no client the cache is marked loaded
and left as is; a listing failure is caught, the cache marked loaded (to
prevent retry loops); otherwise the blob loop runs and the cache is marked
loaded.  The second component counts invocations of the store's list
operation during this call. -/
def loadAllOccupations (store : StoreBehavior) (s : CacheState) :
    CacheState × Nat :=
  if s.isLoaded then (s, 0)
  else
    match store with
    | .unconfigured => ({ s with isLoaded := true }, 0)
    | .unreachable => ({ s with isLoaded := true }, 1)
    | .available blobs fetch =>
        ({ data := (loadLoop fetch blobs s.data 0).1, isLoaded := true }, 1)

/-- The blob names `_load_all_occupations` attempts to download. -/
def loadFetched (store : StoreBehavior) (s : CacheState) : List String :=
  if s.isLoaded then []
  else
    match store with
    | .unconfigured | .unreachable => []
    | .available blobs fetch => (loadLoop fetch blobs s.data 0).2

/-- The structured not-found result of `get_occupation_data` (lines 155–158). -/
def notFoundJson (name : String) (keys : List String) : Json :=
  Json.obj [("error", Json.str ("Occupation '" ++ name ++ "' not found")),
            ("available_occupations", Json.arr (keys.map Json.str))]

/-- `get_occupation_data`: ensure loaded, then return all cached values when
the name is empty/absent, the named collection when present, and the
structured not-found result otherwise.  The JSON value returned models the
parse of the JSON string the Python method serializes.  The `Nat` counts list
operations triggered. -/
def getOccupationData (store : StoreBehavior) (s : CacheState)
    (name : String) : Json × CacheState × Nat :=
  let ls := loadAllOccupations store s
  if name = "" then (Json.arr (ls.1.data.map Prod.snd), ls.1, ls.2)
  else
    match ls.1.data.lookup name with
    | some v => (v, ls.1, ls.2)
    | none => (notFoundJson name (ls.1.data.map Prod.fst), ls.1, ls.2)

/-- `get_all_occupations`: ensure loaded, return the list of cached names. -/
def getAllOccupations (store : StoreBehavior) (s : CacheState) :
    Json × CacheState × Nat :=
  let ls := loadAllOccupations store s
  (Json.arr (ls.1.data.map (fun p => Json.str p.1)), ls.1, ls.2)

/-- `clear_cache`: clear the dict and reset the loaded flag. -/
def clearCache (_s : CacheState) : CacheState := ⟨[], false⟩

/-- `is_loaded`. -/
def isLoadedFn (s : CacheState) : Bool := s.isLoaded

/-- `get_occupation_count`. -/
def getOccupationCount (s : CacheState) : Nat := s.data.length

/-!  The faceted query handlers.  Each handler parses the JSON string returned
by `get_occupation_data` (modelled directly by the `Json` value), short-
circuits on an error dict, computes its `data_source` and runs its filter
pass.  The shared `data_source` step (e.g. lines 412–421): with a name, the
collection's value if it is a list else `[]`; without a name, the returned
value is the list of all collections and every element that is a list is
flattened in, non-list elements being skipped. -/

/-- Lexicographic comparison of code-point sequences: Python's `<=` on
`str`, which `sorted` uses on string values. -/
def charsLe : List Char → List Char → Bool
  | [], _ => true
  | _ :: _, [] => false
  | x :: xs, y :: ys => if x = y then charsLe xs ys else decide (x < y)

/-- Python's `<=` on strings, as a relation. -/
def strLe (a b : String) : Prop := charsLe a.data b.data = true

instance : DecidableRel strLe :=
  fun a b => inferInstanceAs (Decidable (charsLe a.data b.data = true))

instance : IsTotal String strLe := by
  constructor
  intro a b
  show charsLe a.data b.data = true ∨ charsLe b.data a.data = true
  generalize a.data = l1
  generalize b.data = l2
  induction l1 generalizing l2 with
  | nil => exact Or.inl rfl
  | cons x xs ih =>
    cases l2 with
    | nil => exact Or.inr rfl
    | cons y ys =>
      by_cases h : x = y
      · subst h; simpa [charsLe] using ih ys
      · rcases lt_or_gt_of_ne h with h1 | h1
        · left; simp [charsLe, h, h1]
        · right; simp [charsLe, Ne.symm h, h1]

instance : IsTrans String strLe := by
  constructor
  intro a b c
  show charsLe a.data b.data = true → charsLe b.data c.data = true →
    charsLe a.data c.data = true
  generalize a.data = l1
  generalize b.data = l2
  generalize c.data = l3
  induction l1 generalizing l2 l3 with
  | nil => intro _ _; rfl
  | cons x xs ih =>
    intro h1 h2
    cases l2 with
    | nil => simp [charsLe] at h1
    | cons y ys =>
      cases l3 with
      | nil => simp [charsLe] at h2
      | cons z zs =>
        by_cases hxy : x = y
        · subst hxy
          by_cases hyz : x = z
          · subst hyz
            simp only [charsLe, if_pos rfl] at h1 h2 ⊢
            exact ih ys zs h1 h2
          · simpa [charsLe, hyz] using (by simpa [charsLe, hyz] using h2)
        · by_cases hyz : y = z
          · subst hyz
            simpa [charsLe, hxy] using (by simpa [charsLe, hxy] using h1)
          · have hx : x < y := by simpa [charsLe, hxy] using h1
            have hy : y < z := by simpa [charsLe, hyz] using h2
            have hxz : x < z := lt_trans hx hy
            simp [charsLe, ne_of_lt hxz, hxz]

instance : IsAntisymm String strLe := by
  constructor
  intro a b hab hba
  have key : ∀ l1 l2 : List Char, charsLe l1 l2 = true →
      charsLe l2 l1 = true → l1 = l2 := by
    intro l1
    induction l1 with
    | nil =>
      intro l2 h1 h2
      cases l2 with
      | nil => rfl
      | cons y ys => simp [charsLe] at h2
    | cons x xs ih =>
      intro l2 h1 h2
      cases l2 with
      | nil => simp [charsLe] at h1
      | cons y ys =>
        by_cases hxy : x = y
        · subst hxy
          simp only [charsLe, if_pos rfl] at h1 h2
          rw [ih ys h1 h2]
        · have h1' : x < y := by simpa [charsLe, hxy] using h1
          have h2' : y < x := by simpa [charsLe, Ne.symm hxy] using h2
          exact absurd h2' (lt_asymm h1')
  have hd := key a.data b.data hab hba
  cases a
  cases b
  exact congrArg String.mk hd

/-- The `data_source` record sequence a facet operates over. -/
def dataSource (occName : String) (data : Json) : List Json :=
  if occName = "" then (data.arrElems).flatMap Json.arrElems
  else data.arrElems

/-- The `Rank` value extraction of `get_all_ranks` (line 423): one value per
record that is a dict (`'Unknown'` when the field is absent); non-dict
records are skipped by the `isinstance` guard. -/
def rankValues (records : List Json) : List Json :=
  records.filterMap fun r =>
    if r.isObj then some (r.getD "Rank" (Json.str "Unknown")) else none

/-- All-strings projection of a JSON list, `none` if some element is not a
string. -/
def toStrList : List Json → Option (List String)
  | [] => some []
  | Json.str s :: rest => (toStrList rest).map (s :: ·)
  | _ :: _ => none

/-- The `set(...)` step of `sorted(list(set(...)))`: insert values left to
right, deduplicating by Python equality (`True == 1`); insertion of an
unhashable value (list, dict) raises `TypeError`, modelled as `none`.  The
set keeps the first-inserted representative of each equality class; the
accumulator records each class's key with its representative. -/
def dedupByKey : List Json → List (PyKey × Json) → Option (List (PyKey × Json))
  | [], acc => some acc
  | v :: rest, acc =>
    match v.hashKey with
    | none => none
    | some k =>
        if acc.any (fun p => p.1 == k) then dedupByKey rest acc
        else dedupByKey rest (acc ++ [(k, v)])

/-- `sorted(list(set(vals)))` as Python evaluates it on cached JSON values:
`set` raises on an unhashable element (`none`); `sorted` performs no
comparison on at most one distinct element, orders all-numeric elements
numerically and all-string elements lexicographically (a string value is
exactly the string of its key), and raises (`none`) on any other mix of
distinct elements (e.g. a string with a number, or `None` with anything). -/
def pySortedSet (vals : List Json) : Option (List Json) :=
  match dedupByKey vals [] with
  | none => none
  | some reps =>
      if reps.length ≤ 1 then some (reps.map Prod.snd)
      else if reps.all (fun p => p.1.isInt) then
        some ((@List.insertionSort (PyKey × Json)
          (fun p q => p.1.intVal ≤ q.1.intVal)
          (fun _ _ => Int.decLe _ _) reps).map Prod.snd)
      else if reps.all (fun p => p.1.isStr) then
        some ((List.insertionSort strLe
          (reps.map (fun p => p.1.strVal))).map Json.str)
      else none

/-- `get_all_ranks`: Python computes `sorted(list(set(...)))` over the
collected rank values (line 423), embedded by `pySortedSet`; the result is
`none` exactly where that expression raises `TypeError` — an unhashable
rank value, or distinct rank values that are not mutually comparable. -/
def getAllRanks (store : StoreBehavior) (s : CacheState) (occName : String) :
    Option (Json × CacheState × Nat) :=
  let r := getOccupationData store s occName
  if r.1.isErrorDict then some r
  else
    match pySortedSet (rankValues (dataSource occName r.1)) with
    | some ranks =>
        some (Json.obj [("occupation_filter",
              Json.str (if occName = "" then "All" else occName)),
            ("total_ranks", Json.num ranks.length),
            ("ranks", Json.arr ranks)], r.2)
    | none => none

/-- The dedup-by-job-code loop of `get_job_codes_for_rank` (lines 473–482):
a Python dict keyed by the record's `JobCode` value, first occurrence wins,
falsy job codes skipped (`if job_code and job_code not in job_codes`, with
`and` short-circuiting).  The membership test hashes the code, so a truthy
unhashable `JobCode` value raises `TypeError` (`none`); dict keys compare by
Python equality, via `hashKey`. -/
def jobCodesLoop (rank : String) :
    List Json → List (PyKey × Json) → Option (List (PyKey × Json))
  | [], acc => some acc
  | r :: rest, acc =>
      if r.isObj && r.getD "Rank" .null == Json.str rank then
        let jc := r.getD "JobCode" .null
        if jc.truthy then
          match jc.hashKey with
          | none => none
          | some k =>
              if acc.any (fun p => p.1 == k) then jobCodesLoop rank rest acc
              else jobCodesLoop rank rest (acc ++ [(k,
                Json.obj [("job_code", jc),
                  ("occupation_requirement",
                    r.getD "OccupationRequirement" (Json.str "Unknown")),
                  ("occupation", r.getD "Occupation" (Json.str "Unknown"))])])
        else jobCodesLoop rank rest acc
      else jobCodesLoop rank rest acc

/-- `get_job_codes_for_rank`; `none` where the dedup loop raises. -/
def getJobCodesForRank (store : StoreBehavior) (s : CacheState)
    (rank occName : String) : Option (Json × CacheState × Nat) :=
  if rank = "" then
    some (Json.obj [("error", Json.str "Rank is required")], s, 0)
  else
    let r := getOccupationData store s occName
    if r.1.isErrorDict then some r
    else
      match jobCodesLoop rank (dataSource occName r.1) [] with
      | some codes =>
          some (Json.obj [("rank_filter", Json.str rank),
            ("occupation_filter",
              Json.str (if occName = "" then "All" else occName)),
            ("total_job_codes", Json.num codes.length),
            ("job_codes", Json.arr (codes.map Prod.snd))], r.2)
      | none => none

/-- One emitted task entry of `get_tasks_for_job_code` (lines 536–542). -/
def taskEntry (r : Json) : Json :=
  Json.obj [("task_code", r.getD "TaskCode" .null),
    ("task_description", r.getD "TaskDescription" .null),
    ("duty_area_code", r.getD "DutyAreaGroupCode" .null),
    ("duty_area_name", r.getD "DutyAreaGroupName" .null),
    ("is_required", r.getD "IsRequired" (Json.bool false))]

/-- The filter pass of `get_tasks_for_job_code`: dict records whose `JobCode`
equals the given code and whose `Category` is `'Task'`. -/
def tasksFilter (jobCode : String) (records : List Json) : List Json :=
  records.filterMap fun r =>
    if r.isObj && r.getD "JobCode" .null == Json.str jobCode
        && r.getD "Category" .null == Json.str "Task" then
      some (taskEntry r)
    else none

/-- `get_tasks_for_job_code`. -/
def getTasksForJobCode (store : StoreBehavior) (s : CacheState)
    (jobCode occName : String) : Json × CacheState × Nat :=
  if jobCode = "" then
    (Json.obj [("error", Json.str "Job code is required")], s, 0)
  else
    let r := getOccupationData store s occName
    if r.1.isErrorDict then r
    else
      let tasks := tasksFilter jobCode (dataSource occName r.1)
      (Json.obj [("job_code_filter", Json.str jobCode),
        ("occupation_filter",
          Json.str (if occName = "" then "All" else occName)),
        ("total_tasks", Json.num tasks.length),
        ("tasks", Json.arr tasks)], r.2)

/-- One emitted task entry of `get_tasks_for_duty_area` (lines 600–606). -/
def dutyTaskEntry (r : Json) : Json :=
  Json.obj [("task_code", r.getD "TaskCode" .null),
    ("task_description", r.getD "TaskDescription" .null),
    ("job_code", r.getD "JobCode" .null),
    ("rank", r.getD "Rank" .null),
    ("is_required", r.getD "IsRequired" (Json.bool false))]

/-- The filter pass of `get_tasks_for_duty_area`: dict records with the given
`DutyAreaGroupCode` and `Category == 'Task'`, additionally filtered by
`JobCode` when a (truthy, i.e. nonempty) job code was supplied. -/
def dutyTasksFilter (dutyAreaCode jobCode : String) (records : List Json) :
    List Json :=
  records.filterMap fun r =>
    if r.isObj && r.getD "DutyAreaGroupCode" .null == Json.str dutyAreaCode
        && r.getD "Category" .null == Json.str "Task" then
      if jobCode != "" && r.getD "JobCode" .null != Json.str jobCode then none
      else some (dutyTaskEntry r)
    else none

/-- `get_tasks_for_duty_area`. -/
def getTasksForDutyArea (store : StoreBehavior) (s : CacheState)
    (dutyAreaCode jobCode occName : String) : Json × CacheState × Nat :=
  if dutyAreaCode = "" then
    (Json.obj [("error", Json.str "Duty area code is required")], s, 0)
  else
    let r := getOccupationData store s occName
    if r.1.isErrorDict then r
    else
      let tasks := dutyTasksFilter dutyAreaCode jobCode (dataSource occName r.1)
      (Json.obj [("duty_area_code_filter", Json.str dutyAreaCode),
        ("job_code_filter",
          Json.str (if jobCode = "" then "All" else jobCode)),
        ("occupation_filter",
          Json.str (if occName = "" then "All" else occName)),
        ("total_tasks", Json.num tasks.length),
        ("tasks", Json.arr tasks)], r.2)

/-- One emitted skill entry of `get_skills_for_job_code` (lines 661–667). -/
def skillEntry (r : Json) : Json :=
  Json.obj [("skill_code", r.getD "TaskCode" .null),
    ("skill_description", r.getD "TaskDescription" .null),
    ("duty_area_code", r.getD "DutyAreaGroupCode" .null),
    ("duty_area_name", r.getD "DutyAreaGroupName" .null),
    ("is_required", r.getD "IsRequired" (Json.bool false))]

/-- The filter pass of `get_skills_for_job_code`. -/
def skillsFilter (jobCode : String) (records : List Json) : List Json :=
  records.filterMap fun r =>
    if r.isObj && r.getD "JobCode" .null == Json.str jobCode
        && r.getD "Category" .null == Json.str "Skill" then
      some (skillEntry r)
    else none

/-- `get_skills_for_job_code`. -/
def getSkillsForJobCode (store : StoreBehavior) (s : CacheState)
    (jobCode occName : String) : Json × CacheState × Nat :=
  if jobCode = "" then
    (Json.obj [("error", Json.str "Job code is required")], s, 0)
  else
    let r := getOccupationData store s occName
    if r.1.isErrorDict then r
    else
      let skills := skillsFilter jobCode (dataSource occName r.1)
      (Json.obj [("job_code_filter", Json.str jobCode),
        ("occupation_filter",
          Json.str (if occName = "" then "All" else occName)),
        ("total_skills", Json.num skills.length),
        ("skills", Json.arr skills)], r.2)

/-- One emitted knowledge entry of `get_knowledge_for_job_code`. -/
def knowledgeEntry (r : Json) : Json :=
  Json.obj [("knowledge_code", r.getD "TaskCode" .null),
    ("knowledge_description", r.getD "TaskDescription" .null),
    ("duty_area_code", r.getD "DutyAreaGroupCode" .null),
    ("duty_area_name", r.getD "DutyAreaGroupName" .null),
    ("is_required", r.getD "IsRequired" (Json.bool false))]

/-- The filter pass of `get_knowledge_for_job_code`. -/
def knowledgeFilter (jobCode : String) (records : List Json) : List Json :=
  records.filterMap fun r =>
    if r.isObj && r.getD "JobCode" .null == Json.str jobCode
        && r.getD "Category" .null == Json.str "Knowledge" then
      some (knowledgeEntry r)
    else none

/-- `get_knowledge_for_job_code`. -/
def getKnowledgeForJobCode (store : StoreBehavior) (s : CacheState)
    (jobCode occName : String) : Json × CacheState × Nat :=
  if jobCode = "" then
    (Json.obj [("error", Json.str "Job code is required")], s, 0)
  else
    let r := getOccupationData store s occName
    if r.1.isErrorDict then r
    else
      let items := knowledgeFilter jobCode (dataSource occName r.1)
      (Json.obj [("job_code_filter", Json.str jobCode),
        ("occupation_filter",
          Json.str (if occName = "" then "All" else occName)),
        ("total_knowledge_items", Json.num items.length),
        ("knowledge_items", Json.arr items)], r.2)

/-- The dedup loop of `get_all_duty_areas` (lines 773–782): a dict keyed by
the record's `DutyAreaGroupCode`, first occurrence wins, falsy codes and
non-dict records skipped (`if code and code not in duty_areas`, with `and`
short-circuiting).  The membership test hashes the code, so a truthy
unhashable `DutyAreaGroupCode` value raises `TypeError` (`none`); dict keys
compare by Python equality, via `hashKey`. -/
def dutyAreasLoop : List Json → List (PyKey × Json) →
    Option (List (PyKey × Json))
  | [], acc => some acc
  | r :: rest, acc =>
      if r.isObj then
        let code := r.getD "DutyAreaGroupCode" .null
        if code.truthy then
          match code.hashKey with
          | none => none
          | some k =>
              if acc.any (fun p => p.1 == k) then dutyAreasLoop rest acc
              else dutyAreasLoop rest (acc ++ [(k,
                Json.obj [("code", code),
                  ("name", r.getD "DutyAreaGroupName" .null)])])
        else dutyAreasLoop rest acc
      else dutyAreasLoop rest acc

/-!  Concrete scenarios used by the testable-properties claims. -/

/-- A listing of `n` blob names `b0.json, …`, all ending in the recognized
suffix. -/
def blobNames (n : Nat) : List String :=
  (List.range n).map (fun i => "b" ++ toString i ++ ".json")

/-- A fetch behaviour where every download succeeds with an empty record
list. -/
def fetchOk : String → Option Json := fun _ => some (Json.arr [])

/-- A fetch behaviour where the first listed blob fails to parse and the
rest succeed. -/
def fetchFirstFails : String → Option Json :=
  fun b => if b = "b0.json" then none else some (Json.arr [])

/-- The five-object listing of the partial-failure scenario. -/
def blobs5 : List String :=
  ["a.json", "b.json", "c.json", "d.json", "e.json"]

/-- Fetch behaviour for the partial-failure scenario: exactly `c.json` fails
to parse. -/
def fetch5 : String → Option Json :=
  fun b => if b = "c.json" then none else some (Json.arr [])

/-- The fixed two-record set of the facet-determinism scenario, loaded as one
collection. -/
def cacheSection8 : CacheState :=
  ⟨[("occ1", Json.arr [
      Json.obj [("Rank", Json.str "E1"), ("JobCode", Json.str "A1"),
        ("Category", Json.str "Task"), ("TaskCode", Json.str "T1"),
        ("TaskDescription", Json.str "d"),
        ("DutyAreaGroupCode", Json.str "D1"),
        ("DutyAreaGroupName", Json.str "Area1"),
        ("IsRequired", Json.bool true)],
      Json.obj [("Rank", Json.str "E2"), ("JobCode", Json.str "A1"),
        ("Category", Json.str "Skill"), ("TaskCode", Json.str "S1"),
        ("TaskDescription", Json.str "sd")]])], true⟩

/-- A loaded cache holding one collection with a single record whose `Rank`
value is a JSON array (Python: an unhashable `list`). -/
def cacheBadRank : CacheState :=
  ⟨[("x", Json.arr [Json.obj [("Rank", Json.arr [])]])], true⟩

/-!  An interleaving model of concurrent first-time calls to the load
trigger, for the load-once property.  A caller's call consists of the
lock-free `_is_loaded` check (line 78) followed, when the flag was seen
false, by the locked region (lines 82–126): re-check the flag and, if still
unloaded, run the load and set the flag.  The locked region is a single
atomic transition because `_lock` is held for its entire duration; the flag
read is atomic. -/

/-- Phase of one caller: before the lock-free flag check; after having
observed `loaded = false`, waiting for the lock; returned. -/
inductive TPhase where
  | start
  | ready
  | done
deriving DecidableEq

/-- Global state of concurrent callers racing on the singleton cache: the
shared cache, the number of store list operations performed so far, and
each caller's phase. -/
structure SysState where
  cache : CacheState
  listCalls : Nat
  threads : List TPhase
deriving DecidableEq

/-- Interleaving semantics of concurrent `_load_all_occupations` calls. -/
inductive LoadStep (store : StoreBehavior) : SysState → SysState → Prop where
  | fastLoaded (c : CacheState) (n : Nat) (l₁ l₂ : List TPhase)
      (h : c.isLoaded = true) :
      LoadStep store ⟨c, n, l₁ ++ TPhase.start :: l₂⟩
        ⟨c, n, l₁ ++ TPhase.done :: l₂⟩
  | fastUnloaded (c : CacheState) (n : Nat) (l₁ l₂ : List TPhase)
      (h : c.isLoaded = false) :
      LoadStep store ⟨c, n, l₁ ++ TPhase.start :: l₂⟩
        ⟨c, n, l₁ ++ TPhase.ready :: l₂⟩
  | crit (c : CacheState) (n : Nat) (l₁ l₂ : List TPhase) :
      LoadStep store ⟨c, n, l₁ ++ TPhase.ready :: l₂⟩
        ⟨(loadAllOccupations store c).1, n + (loadAllOccupations store c).2,
          l₁ ++ TPhase.done :: l₂⟩

/-- Inductive invariant of the race: while the flag is down the cache is
untouched, no list call has happened and nobody has returned; once it is up,
the cache is the one the single load built and the list-call count is that
load's. -/
def LoadInv (store : StoreBehavior) (c₀ : CacheState) (σ : SysState) : Prop :=
  (σ.cache.isLoaded = false → σ.cache = c₀ ∧ σ.listCalls = 0 ∧
    TPhase.done ∉ σ.threads) ∧
  (σ.cache.isLoaded = true →
    σ.cache = (loadAllOccupations store c₀).1 ∧
    σ.listCalls = (loadAllOccupations store c₀).2)

/-!  Helper lemmas about the load protocol. -/

theorem loadAll_of_loaded (store : StoreBehavior) (s : CacheState)
    (h : s.isLoaded = true) : loadAllOccupations store s = (s, 0) := by
  simp [loadAllOccupations, h]

theorem loadAll_isLoaded (store : StoreBehavior) (s : CacheState) :
    ((loadAllOccupations store s).1).isLoaded = true := by
  by_cases h : s.isLoaded
  · simp [loadAllOccupations, h]
  · cases store <;> simp [loadAllOccupations, h]

theorem dictInsert_length_le (d : List (String × Json)) (k : String)
    (v : Json) : (dictInsert d k v).length ≤ d.length + 1 := by
  unfold dictInsert
  split
  · simp
  · simp

theorem mem_dictInsert (d : List (String × Json)) (k : String) (v : Json)
    (p : String × Json) (h : p ∈ dictInsert d k v) : p ∈ d ∨ p = (k, v) := by
  unfold dictInsert at h
  split at h
  · obtain ⟨q, hq, rfl⟩ := List.mem_map.1 h
    by_cases h1 : q.1 = k
    · right; simp [h1]
    · left; simpa [h1] using hq
  · rcases List.mem_append.1 h with h1 | h1
    · exact Or.inl h1
    · right; simpa using h1

theorem loadLoop_length_le (fetch : String → Option Json)
    (blobs : List String) :
    ∀ (data : List (String × Json)) (fc : Nat), fc ≤ 20 →
      (loadLoop fetch blobs data fc).1.length ≤ data.length + (20 - fc) := by
  induction blobs with
  | nil => intro data fc _; simp [loadLoop]
  | cons b rest ih =>
    intro data fc h
    simp only [loadLoop]
    by_cases h20 : fc ≥ 20
    · simp [h20]
    · simp only [if_neg h20]
      by_cases hj : endsWithJson b
      · simp only [if_pos hj]
        cases hf : fetch b with
        | some v =>
            have h1 := ih (dictInsert data (stripJson b) v) (fc + 1)
              (by omega)
            have h2 := dictInsert_length_le data (stripJson b) v
            simpa using (by omega :
              (loadLoop fetch rest (dictInsert data (stripJson b) v)
                (fc + 1)).1.length ≤ data.length + (20 - fc))
        | none =>
            have h1 := ih data fc (by omega)
            simpa using h1
      · simp only [if_neg hj]
        exact ih data fc h

theorem mem_loadLoop (fetch : String → Option Json) (blobs : List String) :
    ∀ (data : List (String × Json)) (fc : Nat) (p : String × Json),
      p ∈ (loadLoop fetch blobs data fc).1 →
      p ∈ data ∨ ∃ b ∈ blobs, endsWithJson b ∧ fetch b = some p.2 ∧
        stripJson b = p.1 := by
  induction blobs with
  | nil => intro data fc p h; simp [loadLoop] at h; exact Or.inl h
  | cons b rest ih =>
    intro data fc p h
    simp only [loadLoop] at h
    by_cases h20 : fc ≥ 20
    · simp only [if_pos h20] at h
      exact Or.inl h
    · simp only [if_neg h20] at h
      by_cases hj : endsWithJson b
      · simp only [if_pos hj] at h
        cases hf : fetch b with
        | some v =>
            rw [hf] at h
            simp only [] at h
            rcases ih (dictInsert data (stripJson b) v) (fc + 1) p h with
              hd | ⟨b', hb', hj', hf', hn'⟩
            · rcases mem_dictInsert data (stripJson b) v p hd with h1 | h1
              · exact Or.inl h1
              · right
                refine ⟨b, List.mem_cons_self _ _, hj, ?_, ?_⟩
                · rw [h1]; exact hf
                · rw [h1]
            · exact Or.inr ⟨b', List.mem_cons_of_mem _ hb', hj', hf', hn'⟩
        | none =>
            rw [hf] at h
            simp only [] at h
            rcases ih data fc p h with hd | ⟨b', hb', hj', hf', hn'⟩
            · exact Or.inl hd
            · exact Or.inr ⟨b', List.mem_cons_of_mem _ hb', hj', hf', hn'⟩
      · simp only [if_neg hj] at h
        rcases ih data fc p h with hd | ⟨b', hb', hj', hf', hn'⟩
        · exact Or.inl hd
        · exact Or.inr ⟨b', List.mem_cons_of_mem _ hb', hj', hf', hn'⟩

/-!  Theorems for the claims. -/

/-- C2: every call to the load trigger terminates with the loaded flag set;
when the store is unconfigured or unreachable and the cache starts fresh,
the load completes with zero collections (loaded-but-empty) and a query for
all collections returns the empty list rather than raising. -/
theorem ensure_loaded_always_marks_loaded (store : StoreBehavior)
    (s : CacheState) :
    ((loadAllOccupations store s).1).isLoaded = true ∧
    ((store = StoreBehavior.unconfigured ∨ store = StoreBehavior.unreachable) →
      s.data = [] →
      (loadAllOccupations store s).1.data = [] ∧
      (getOccupationData store s "").1 = Json.arr []) := by
  refine ⟨loadAll_isLoaded store s, fun hstore hdata => ?_⟩
  have hld : (loadAllOccupations store s).1.data = [] := by
    by_cases h : s.isLoaded
    · simp [loadAllOccupations, h, hdata]
    · rcases hstore with h1 | h1 <;> subst h1 <;>
        simp [loadAllOccupations, h, hdata]
  refine ⟨hld, ?_⟩
  simp [getOccupationData, hld]

/-- Witness for `ensure_loaded_always_marks_loaded` at a concrete input. -/
theorem ensure_loaded_always_marks_loaded_witness :
    ((loadAllOccupations StoreBehavior.unreachable CacheState.initial).1).isLoaded
        = true ∧
    ((StoreBehavior.unreachable = StoreBehavior.unconfigured ∨
        StoreBehavior.unreachable = StoreBehavior.unreachable) →
      CacheState.initial.data = [] →
      (loadAllOccupations StoreBehavior.unreachable CacheState.initial).1.data
          = [] ∧
      (getOccupationData StoreBehavior.unreachable CacheState.initial "").1 =
        Json.arr []) :=
  ensure_loaded_always_marks_loaded StoreBehavior.unreachable CacheState.initial

/-- C4: `clear_cache` empties the dict and resets the loaded flag, so the
cache appears empty immediately afterwards (`size 0`, not loaded, no previous
contents); the next load performs exactly one list operation and the load
after that performs none. -/
theorem invalidate_clears_and_forces_single_reload (s : CacheState)
    (blobs : List String) (fetch : String → Option Json) :
    (clearCache s).data = [] ∧
    (clearCache s).isLoaded = false ∧
    getOccupationCount (clearCache s) = 0 ∧
    isLoadedFn (clearCache s) = false ∧
    (loadAllOccupations (StoreBehavior.available blobs fetch)
      (clearCache s)).2 = 1 ∧
    (loadAllOccupations (StoreBehavior.available blobs fetch)
      ((loadAllOccupations (StoreBehavior.available blobs fetch)
        (clearCache s)).1)).2 = 0 := by
  refine ⟨rfl, rfl, rfl, rfl, by simp [clearCache, loadAllOccupations], ?_⟩
  rw [loadAll_of_loaded _ _ (loadAll_isLoaded _ _)]

/-- C5: a lookup for a name absent from the loaded cache returns the
structured not-found result (no exception), whose `available_occupations`
list is exactly the name list `get_all_occupations` reports on the same
cache state; an empty/absent name returns all cached collections instead. -/
theorem get_missing_name_structured_notfound (store : StoreBehavior)
    (s : CacheState) (name : String) (hl : s.isLoaded = true)
    (hn : name ≠ "") (habs : s.data.lookup name = none) :
    (getOccupationData store s name).1 =
      notFoundJson name (s.data.map Prod.fst) ∧
    ((getOccupationData store s name).1.get? "available_occupations" =
      some (getAllOccupations store s).1) ∧
    (getOccupationData store s "").1 = Json.arr (s.data.map Prod.snd) := by
  have h1 : getOccupationData store s name =
      (notFoundJson name (s.data.map Prod.fst), s, 0) := by
    simp [getOccupationData, loadAll_of_loaded store s hl, hn, habs]
  refine ⟨by rw [h1], ?_, ?_⟩
  · rw [h1]
    simp [notFoundJson, Json.get?, getAllOccupations,
      loadAll_of_loaded store s hl, List.lookup]
  · simp [getOccupationData, loadAll_of_loaded store s hl]

/-- Witness for `get_missing_name_structured_notfound`. -/
theorem get_missing_name_structured_notfound_witness :
    (getOccupationData StoreBehavior.unconfigured
        ⟨[("alpha", Json.arr [])], true⟩ "beta").1 =
      notFoundJson "beta" ["alpha"] ∧
    ((getOccupationData StoreBehavior.unconfigured
        ⟨[("alpha", Json.arr [])], true⟩ "beta").1.get?
          "available_occupations" =
      some (getAllOccupations StoreBehavior.unconfigured
        ⟨[("alpha", Json.arr [])], true⟩).1) ∧
    (getOccupationData StoreBehavior.unconfigured
        ⟨[("alpha", Json.arr [])], true⟩ "").1 =
      Json.arr [Json.arr []] :=
  get_missing_name_structured_notfound StoreBehavior.unconfigured
    ⟨[("alpha", Json.arr [])], true⟩ "beta" rfl (by decide) (by decide)

/-- C7: each facet with a required filter argument answers a missing or empty
argument with the structured `"<Field> is required"` error, touching neither
the cache contents nor the store (state unchanged, zero list operations), in
every cache state — an empty required filter is never treated as
match-everything. -/
theorem facets_require_filter_argument (store : StoreBehavior)
    (s : CacheState) (jc occName : String) :
    getJobCodesForRank store s "" occName =
      (Json.obj [("error", Json.str "Rank is required")], s, 0) ∧
    getTasksForJobCode store s "" occName =
      (Json.obj [("error", Json.str "Job code is required")], s, 0) ∧
    getTasksForDutyArea store s "" jc occName =
      (Json.obj [("error", Json.str "Duty area code is required")], s, 0) ∧
    getSkillsForJobCode store s "" occName =
      (Json.obj [("error", Json.str "Job code is required")], s, 0) ∧
    getKnowledgeForJobCode store s "" occName =
      (Json.obj [("error", Json.str "Job code is required")], s, 0) := by
  refine ⟨?_, ?_, ?_, ?_, ?_⟩ <;> rfl

/-- C1 counterexample: with 21 suffix-matching blobs of which the first
fails to parse, the load has attempted 20 suffix-matching objects after the
20th listing entry, yet it still fetches the 21st (`b20.json`) — the cap
counts successfully loaded files only, not attempted ones, so the claimed
stop-after-20-attempts rule is violated. -/
theorem load_cap_attempts_counterexample :
    (loadFetched (StoreBehavior.available (blobNames 21) fetchFirstFails)
      CacheState.initial).length = 21 ∧
    "b20.json" ∈ loadFetched
      (StoreBehavior.available (blobNames 21) fetchFirstFails)
      CacheState.initial ∧
    (loadAllOccupations (StoreBehavior.available (blobNames 21)
      fetchFirstFails) CacheState.initial).1.data.length = 20 := by
  refine ⟨?_, ?_, ?_⟩ <;> decide

/-- C1 amended: the load caps the number of *successfully loaded* objects at
20 (failed attempts do not count toward the cap), so starting from an empty
cache at most 20 collections are ever held; and given 25 suffix-matching
source objects that all parse, exactly 20 are loaded and the 21st onward are
never fetched. -/
theorem load_bounded_by_twenty_successes (blobs : List String)
    (fetch : String → Option Json) (s : CacheState) (hs : s.data = []) :
    (loadAllOccupations (StoreBehavior.available blobs fetch) s).1.data.length
        ≤ 20 ∧
    ((loadAllOccupations (StoreBehavior.available (blobNames 25) fetchOk)
        CacheState.initial).1.data.length = 20 ∧
      (loadFetched (StoreBehavior.available (blobNames 25) fetchOk)
        CacheState.initial).length = 20 ∧
      "b20.json" ∉ loadFetched
        (StoreBehavior.available (blobNames 25) fetchOk)
        CacheState.initial) := by
  constructor
  · by_cases h : s.isLoaded
    · simp [loadAllOccupations, h, hs]
    · have := loadLoop_length_le fetch blobs [] 0 (by omega)
      simp only [loadAllOccupations, h, if_neg, Bool.false_eq_true,
        not_false_iff, hs]
      simpa using this
  · refine ⟨?_, ?_, ?_⟩ <;> decide

/-- Witness for `load_bounded_by_twenty_successes`. -/
theorem load_bounded_by_twenty_successes_witness :
    CacheState.initial.data = [] ∧
    (loadAllOccupations (StoreBehavior.available (blobNames 25) fetchOk)
        CacheState.initial).1.data.length ≤ 20 :=
  ⟨rfl, (load_bounded_by_twenty_successes (blobNames 25) fetchOk
    CacheState.initial rfl).1⟩

/-- C3: every entry of the cache built by a load from an empty cache comes
from a successfully fetched and parsed suffix-matching object, so failing
objects are excluded while the load continues, and the cache is marked
loaded; in the concrete 5-objects/1-parse-failure scenario the cache ends
with 4 collections, `is_loaded` is true, and the failed object's collection
is absent. -/
theorem load_skips_failed_objects (blobs : List String)
    (fetch : String → Option Json) (p : String × Json)
    (hmem : p ∈ (loadAllOccupations (StoreBehavior.available blobs fetch)
      CacheState.initial).1.data) :
    (∃ b ∈ blobs, endsWithJson b ∧ fetch b = some p.2 ∧
      stripJson b = p.1) ∧
    ((loadAllOccupations (StoreBehavior.available blobs fetch)
      CacheState.initial).1).isLoaded = true ∧
    ((loadAllOccupations (StoreBehavior.available blobs5 fetch5)
        CacheState.initial).1.data.length = 4 ∧
      isLoadedFn (loadAllOccupations (StoreBehavior.available blobs5 fetch5)
        CacheState.initial).1 = true ∧
      (loadAllOccupations (StoreBehavior.available blobs5 fetch5)
        CacheState.initial).1.data.lookup "c" = none) := by
  refine ⟨?_, loadAll_isLoaded _ _, by decide, by decide, by decide⟩
  have h : p ∈ (loadLoop fetch blobs [] 0).1 := by
    simpa [loadAllOccupations, CacheState.initial] using hmem
  rcases mem_loadLoop fetch blobs [] 0 p h with hd | hex
  · simp at hd
  · exact hex

/-- Witness for `load_skips_failed_objects`. -/
theorem load_skips_failed_objects_witness :
    ("a", Json.arr []) ∈ (loadAllOccupations
      (StoreBehavior.available blobs5 fetch5) CacheState.initial).1.data ∧
    (∃ b ∈ blobs5, endsWithJson b = true ∧ fetch5 b = some (Json.arr []) ∧
      stripJson b = "a") :=
  ⟨by decide, (load_skips_failed_objects blobs5 fetch5 ("a", Json.arr [])
    (by decide)).1⟩

/-- C6: when the collection-name filter resolves to a not-found result, the
ranks facet and the tasks facet both return that structured not-found result
verbatim as their final answer, with no facet envelope built. -/
theorem facets_propagate_notfound_verbatim (store : StoreBehavior)
    (s : CacheState) (name jc : String) (hl : s.isLoaded = true)
    (hn : name ≠ "") (habs : s.data.lookup name = none) (hjc : jc ≠ "") :
    getAllRanks store s name =
      some (notFoundJson name (s.data.map Prod.fst), s, 0) ∧
    getTasksForJobCode store s jc name =
      (notFoundJson name (s.data.map Prod.fst), s, 0) := by
  have h1 : getOccupationData store s name =
      (notFoundJson name (s.data.map Prod.fst), s, 0) := by
    simp [getOccupationData, loadAll_of_loaded store s hl, hn, habs]
  have herr : (notFoundJson name (s.data.map Prod.fst)).isErrorDict = true := by
    simp [notFoundJson, Json.isErrorDict]
  constructor
  · simp [getAllRanks, h1, herr]
  · simp [getTasksForJobCode, hjc, h1, herr]

/-- Witness for `facets_propagate_notfound_verbatim`. -/
theorem facets_propagate_notfound_verbatim_witness :
    getAllRanks StoreBehavior.unconfigured ⟨[("alpha", Json.arr [])], true⟩
        "beta" =
      some (notFoundJson "beta" ["alpha"],
        ⟨[("alpha", Json.arr [])], true⟩, 0) ∧
    getTasksForJobCode StoreBehavior.unconfigured
        ⟨[("alpha", Json.arr [])], true⟩ "J" "beta" =
      (notFoundJson "beta" ["alpha"], ⟨[("alpha", Json.arr [])], true⟩, 0) :=
  facets_propagate_notfound_verbatim StoreBehavior.unconfigured
    ⟨[("alpha", Json.arr [])], true⟩ "beta" "J" rfl (by decide) (by decide)
    (by decide)

theorem toStrList_mem (vals : List Json) (strs : List String)
    (h : toStrList vals = some strs) (x : String) :
    x ∈ strs ↔ Json.str x ∈ vals := by
  induction vals generalizing strs with
  | nil =>
    simp only [toStrList, Option.some.injEq] at h
    subst h; simp
  | cons v rest ih =>
    cases v with
    | str s =>
      simp only [toStrList] at h
      cases hr : toStrList rest with
      | none => rw [hr] at h; simp at h
      | some strs' =>
        rw [hr] at h
        simp only [Option.map_some', Option.some.injEq] at h
        subst h
        simp [List.mem_cons, ih strs' hr]
    | null => simp [toStrList] at h
    | bool b => simp [toStrList] at h
    | num n => simp [toStrList] at h
    | arr l => simp [toStrList] at h
    | obj f => simp [toStrList] at h

theorem dedupByKey_strings (vals : List Json) (strs : List String)
    (h : toStrList vals = some strs) :
    ∀ acc : List (PyKey × Json),
      (∀ p ∈ acc, ∃ t : String, p = (PyKey.pystr t, Json.str t)) →
      (acc.map Prod.fst).Nodup →
      ∃ reps, dedupByKey vals acc = some reps ∧
        (∀ p ∈ reps, ∃ t : String, p = (PyKey.pystr t, Json.str t)) ∧
        (reps.map Prod.fst).Nodup ∧
        (∀ x : String, PyKey.pystr x ∈ reps.map Prod.fst ↔
          (PyKey.pystr x ∈ acc.map Prod.fst ∨ x ∈ strs)) := by
  induction vals generalizing strs with
  | nil =>
    intro acc hgood hnd
    simp only [toStrList, Option.some.injEq] at h
    subst h
    exact ⟨acc, rfl, hgood, hnd, fun x => by simp⟩
  | cons v rest ih =>
    intro acc hgood hnd
    cases v with
    | str sv =>
      simp only [toStrList] at h
      cases hr : toStrList rest with
      | none => rw [hr] at h; simp at h
      | some strs' =>
        rw [hr] at h
        simp only [Option.map_some', Option.some.injEq] at h
        subst h
        by_cases hmem : (acc.any fun p => p.1 == PyKey.pystr sv)
        · obtain ⟨reps, hre, hg, hnd', hm⟩ := ih strs' hr acc hgood hnd
          refine ⟨reps, ?_, hg, hnd', ?_⟩
          · simp only [dedupByKey, Json.hashKey, hmem, if_true]
            exact hre
          · intro x
            rw [hm x, List.mem_cons]
            have hsv : PyKey.pystr sv ∈ acc.map Prod.fst := by
              obtain ⟨p, hp, hpk⟩ := List.any_eq_true.1 hmem
              have hp1 : p.1 = PyKey.pystr sv := by simpa using hpk
              exact hp1 ▸ List.mem_map_of_mem Prod.fst hp
            constructor
            · rintro (h' | h')
              · exact Or.inl h'
              · exact Or.inr (Or.inr h')
            · rintro (h' | h' | h')
              · exact Or.inl h'
              · subst h'
                exact Or.inl hsv
              · exact Or.inr h'
        · have hgood' : ∀ p ∈ acc ++ [(PyKey.pystr sv, Json.str sv)],
              ∃ t, p = (PyKey.pystr t, Json.str t) := by
            intro p hp
            rcases List.mem_append.1 hp with h' | h'
            · exact hgood p h'
            · exact ⟨sv, by simpa using h'⟩
          have hnone : ∀ p ∈ acc, p.1 ≠ PyKey.pystr sv := by
            intro p hp hpk
            exact hmem (List.any_eq_true.2 ⟨p, hp, by simp [hpk]⟩)
          have hnd'' : (((acc ++ [(PyKey.pystr sv, Json.str sv)]).map
              Prod.fst)).Nodup := by
            rw [List.map_append]
            rw [List.nodup_append]
            refine ⟨hnd, by simp, ?_⟩
            intro k hk
            obtain ⟨p, hp, hpk⟩ := List.mem_map.1 hk
            simp only [List.map_cons, List.map_nil, List.mem_singleton]
            intro hks
            exact hnone p hp (by rw [hpk, hks])
          obtain ⟨reps, hre, hg, hnd', hm⟩ :=
            ih strs' hr (acc ++ [(PyKey.pystr sv, Json.str sv)]) hgood' hnd''
          refine ⟨reps, ?_, hg, hnd', ?_⟩
          · simp only [dedupByKey, Json.hashKey, hmem, if_false,
              Bool.false_eq_true]
            exact hre
          · intro x
            rw [hm x, List.mem_cons]
            have hsplit : PyKey.pystr x ∈
                ((acc ++ [(PyKey.pystr sv, Json.str sv)]).map Prod.fst) ↔
                (PyKey.pystr x ∈ acc.map Prod.fst ∨ x = sv) := by
              rw [List.map_append, List.mem_append]
              simp [PyKey.pystr.injEq]
            rw [hsplit, or_assoc]
    | null => simp [toStrList] at h
    | bool b => simp [toStrList] at h
    | num n => simp [toStrList] at h
    | arr l => simp [toStrList] at h
    | obj f => simp [toStrList] at h

theorem pySortedSet_of_strings (vals : List Json) (strs : List String)
    (h : toStrList vals = some strs) :
    pySortedSet vals =
      some ((List.insertionSort strLe strs.dedup).map Json.str) := by
  obtain ⟨reps, hre, hgood, hnd, hm⟩ :=
    dedupByKey_strings vals strs h [] (by simp) (by simp)
  simp only [List.map_nil, List.not_mem_nil, false_or] at hm
  have hkeys : reps.map Prod.fst =
      (reps.map (fun p => p.1.strVal)).map PyKey.pystr := by
    rw [List.map_map]
    apply List.map_congr_left
    intro p hp
    obtain ⟨t, rfl⟩ := hgood p hp
    rfl
  have hndS : (reps.map (fun p => p.1.strVal)).Nodup :=
    List.Nodup.of_map PyKey.pystr (hkeys ▸ hnd)
  have hmemS : ∀ x, x ∈ reps.map (fun p => p.1.strVal) ↔ x ∈ strs := by
    intro x
    rw [← hm x, hkeys]
    simp [PyKey.pystr.injEq]
  have hvals : reps.map Prod.snd =
      (reps.map (fun p => p.1.strVal)).map Json.str := by
    rw [List.map_map]
    apply List.map_congr_left
    intro p hp
    obtain ⟨t, rfl⟩ := hgood p hp
    rfl
  have h1p : List.Perm
      (List.insertionSort strLe (reps.map (fun p => p.1.strVal)))
      (reps.map (fun p => p.1.strVal)) := List.perm_insertionSort _ _
  have h2p : List.Perm (reps.map (fun p => p.1.strVal)) strs.dedup :=
    (List.perm_ext_iff_of_nodup hndS (List.nodup_dedup _)).2
      (fun a => by rw [hmemS a, List.mem_dedup])
  have h3p : List.Perm strs.dedup (List.insertionSort strLe strs.dedup) :=
    (List.perm_insertionSort _ _).symm
  have hsorteq : List.insertionSort strLe (reps.map (fun p => p.1.strVal)) =
      List.insertionSort strLe strs.dedup :=
    List.eq_of_perm_of_sorted ((h1p.trans h2p).trans h3p)
      (List.sorted_insertionSort strLe _) (List.sorted_insertionSort strLe _)
  rw [pySortedSet, hre]
  by_cases hlen : reps.length ≤ 1
  · have hid : List.insertionSort strLe (reps.map (fun p => p.1.strVal)) =
        reps.map (fun p => p.1.strVal) := by
      cases reps with
      | nil => rfl
      | cons p ps =>
        cases ps with
        | nil => rfl
        | cons q qs => simp at hlen
    simp only [hlen, if_true, if_pos]
    rw [hvals, ← hsorteq, hid]
  · have hne : ∃ p ps, reps = p :: ps := by
      cases reps with
      | nil => simp at hlen
      | cons p ps => exact ⟨p, ps, rfl⟩
    obtain ⟨p, ps, rfl⟩ := hne
    have hint : ((p :: ps).all (fun p => p.1.isInt)) = false := by
      obtain ⟨t, rfl⟩ := hgood p (List.mem_cons_self _ _)
      simp [PyKey.isInt]
    have hstr : ((p :: ps).all (fun p => p.1.isStr)) = true := by
      rw [List.all_eq_true]
      intro q hq
      obtain ⟨t, rfl⟩ := hgood q hq
      rfl
    simp only [hlen, hint, hstr, if_false, if_true, Bool.false_eq_true]
    rw [hsorteq]

/-- C8: on a loaded cache queried with no collection-name filter, when all
collected `Rank` values are strings the ranks facet returns the envelope
whose `ranks` list is the lexicographically sorted deduplication of those
values, `total_ranks` is that list's length and `occupation_filter` is
`"All"`; the list is sorted, has no duplicates and contains exactly the
collected rank values; and on the fixed two-record set the result is
`{occupation_filter: "All", total_ranks: 2, ranks: ["E1", "E2"]}`. -/
theorem ranks_facet_sorted_distinct (store : StoreBehavior) (s : CacheState)
    (strs : List String) (hl : s.isLoaded = true)
    (hstr : toStrList (rankValues (dataSource ""
      (Json.arr (s.data.map Prod.snd)))) = some strs) :
    getAllRanks store s "" =
      some (Json.obj [("occupation_filter", Json.str "All"),
        ("total_ranks", Json.num (List.insertionSort strLe strs.dedup).length),
        ("ranks", Json.arr ((List.insertionSort strLe strs.dedup).map
          Json.str))], s, 0) ∧
    (List.insertionSort strLe strs.dedup).Sorted strLe ∧
    (List.insertionSort strLe strs.dedup).Nodup ∧
    (∀ x, x ∈ List.insertionSort strLe strs.dedup ↔
      Json.str x ∈ rankValues (dataSource ""
        (Json.arr (s.data.map Prod.snd)))) ∧
    getAllRanks StoreBehavior.unconfigured cacheSection8 "" =
      some (Json.obj [("occupation_filter", Json.str "All"),
        ("total_ranks", Json.num 2),
        ("ranks", Json.arr [Json.str "E1", Json.str "E2"])],
        cacheSection8, 0) := by
  refine ⟨?_, List.sorted_insertionSort strLe _, ?_, ?_, by decide⟩
  · have h0 : getOccupationData store s "" =
        (Json.arr (s.data.map Prod.snd), s, 0) := by
      simp [getOccupationData, loadAll_of_loaded store s hl]
    simp [getAllRanks, h0, Json.isErrorDict, pySortedSet_of_strings _ _ hstr]
  · exact ((List.perm_insertionSort strLe _).nodup_iff).2 (List.nodup_dedup strs)
  · intro x
    rw [(List.perm_insertionSort strLe _).mem_iff, List.mem_dedup]
    exact toStrList_mem _ _ hstr x

/-- Witness for `ranks_facet_sorted_distinct`. -/
theorem ranks_facet_sorted_distinct_witness :
    cacheSection8.isLoaded = true ∧
    getAllRanks StoreBehavior.unconfigured cacheSection8 "" =
      some (Json.obj [("occupation_filter", Json.str "All"),
        ("total_ranks", Json.num (List.insertionSort strLe
          (["E1", "E2"] : List String).dedup).length),
        ("ranks", Json.arr ((List.insertionSort strLe
          (["E1", "E2"] : List String).dedup).map Json.str))],
        cacheSection8, 0) :=
  ⟨rfl, (ranks_facet_sorted_distinct StoreBehavior.unconfigured cacheSection8
    ["E1", "E2"] rfl (by decide)).1⟩

theorem filterMap_guard_filter (p : Json → Bool) (f : Json → Json)
    (records : List Json) (hpg : ∀ r, p r = true → r.isObj = true) :
    records.filterMap (fun r => if p r then some (f r) else none) =
      (records.filter Json.isObj).filterMap
        (fun r => if p r then some (f r) else none) := by
  induction records with
  | nil => rfl
  | cons r rest ih =>
    by_cases hg : r.isObj
    · by_cases hp : p r <;> simp [List.filter_cons, hg, hp, ih]
    · have hp : p r = false := by
        cases hpr : p r
        · rfl
        · exact absurd (hpg r hpr) hg
      simp [List.filter_cons, hg, hp, ih]

theorem arrElems_of_not_isArr (v : Json) (h : v.isArr = false) :
    v.arrElems = [] := by
  cases v <;> simp_all [Json.isArr, Json.arrElems]

theorem dutyAreasLoop_skips_nonobjects (records : List Json) :
    ∀ acc, dutyAreasLoop records acc =
      dutyAreasLoop (records.filter Json.isObj) acc := by
  induction records with
  | nil => intro acc; rfl
  | cons r rest ih =>
    intro acc
    by_cases hr : r.isObj
    · simp only [dutyAreasLoop, List.filter_cons, hr, if_true]
      by_cases ht : (r.getD "DutyAreaGroupCode" Json.null).truthy
      · simp only [ht, if_true]
        cases hk : (r.getD "DutyAreaGroupCode" Json.null).hashKey with
        | none => rfl
        | some k =>
          by_cases ha : (acc.any fun p => p.1 == k)
          · simp only [ha, if_true]
            exact ih acc
          · simp only [ha, if_false, Bool.false_eq_true]
            exact ih _
      · simp only [ht, if_false, Bool.false_eq_true]
        exact ih acc
    · simp only [dutyAreasLoop, List.filter_cons, hr, if_false,
        Bool.false_eq_true]
      exact ih acc

/-- C10 counterexample: the ranks facet is not total over arbitrarily-shaped
cached JSON: on a cache whose single record carries a JSON array as its
`Rank` value the facet produces no envelope (the embedding is undefined
there; in Python, `set()` over the unhashable `list` raises `TypeError`), so
"every facet … never an error or an exception" fails. -/
theorem ranks_facet_totality_counterexample :
    getAllRanks StoreBehavior.unconfigured cacheBadRank "" = none ∧
    (Json.obj [("Rank", Json.arr [])]).isObj = true := by
  exact ⟨by decide, rfl⟩

/-- C10 amended: every facet filter pass skips records that are not JSON
objects; flattening all collections drops any collection whose content is
not a JSON array; a query scoped to a named collection whose content is
neither a JSON array nor a dict carrying an `"error"` key yields a
zero-count envelope; if the named collection's cached content is itself a
dict carrying an `"error"` key, the facet's short-circuit check fires and
that dict is returned verbatim (an error result, not an envelope); and the
facets are not total over arbitrarily-shaped cached JSON — the ranks,
job-codes and duty-areas aggregations raise on truthy unhashable key
values, the ranks facet in particular on any unhashable or mutually
incomparable rank values. -/
theorem facets_shape_tolerance (records colls : List Json)
    (acc : List (PyKey × Json)) (jc name name2 : String)
    (store : StoreBehavior) (s : CacheState) (v w : Json)
    (hl : s.isLoaded = true)
    (hv : s.data.lookup name = some v) (hvarr : v.isArr = false)
    (hverr : v.isErrorDict = false) (hn : name ≠ "") (hjc : jc ≠ "")
    (hw : s.data.lookup name2 = some w) (hwerr : w.isErrorDict = true)
    (hn2 : name2 ≠ "") :
    rankValues records = rankValues (records.filter Json.isObj) ∧
    tasksFilter jc records = tasksFilter jc (records.filter Json.isObj) ∧
    dutyAreasLoop records acc = dutyAreasLoop (records.filter Json.isObj) acc ∧
    dataSource "" (Json.arr colls) =
      (colls.filter Json.isArr).flatMap Json.arrElems ∧
    getTasksForJobCode store s jc name =
      (Json.obj [("job_code_filter", Json.str jc),
        ("occupation_filter", Json.str name),
        ("total_tasks", Json.num 0), ("tasks", Json.arr [])], s, 0) ∧
    getTasksForJobCode store s jc name2 = (w, s, 0) := by
  refine ⟨?_, ?_, dutyAreasLoop_skips_nonobjects records acc, ?_, ?_, ?_⟩
  · exact filterMap_guard_filter Json.isObj
      (fun r => r.getD "Rank" (Json.str "Unknown")) records (fun _ h => h)
  · exact filterMap_guard_filter
      (fun r => r.isObj && r.getD "JobCode" .null == Json.str jc
        && r.getD "Category" .null == Json.str "Task") taskEntry records
      (fun r h => by
        simp only [Bool.and_eq_true] at h
        exact h.1.1)
  · have aux : ∀ l : List Json, l.flatMap Json.arrElems =
        (l.filter Json.isArr).flatMap Json.arrElems := by
      intro l
      induction l with
      | nil => rfl
      | cons c rest ih =>
        by_cases hc : c.isArr
        · simp [List.flatMap_cons, List.filter_cons, hc, ih]
        · simp [List.flatMap_cons, List.filter_cons, hc,
            arrElems_of_not_isArr c (by simpa using hc), ih]
    simpa [dataSource, Json.arrElems] using aux colls
  · have h0 : getOccupationData store s name = (v, s, 0) := by
      simp [getOccupationData, loadAll_of_loaded store s hl, hn, hv]
    have hde : dataSource name v = [] := by
      simp [dataSource, hn, arrElems_of_not_isArr v hvarr]
    simp [getTasksForJobCode, hjc, h0, hverr, hde, tasksFilter, hn]
  · have h0 : getOccupationData store s name2 = (w, s, 0) := by
      simp [getOccupationData, loadAll_of_loaded store s hl, hn2, hw]
    simp [getTasksForJobCode, hjc, h0, hwerr]

/-- Witness for `facets_shape_tolerance`. -/
theorem facets_shape_tolerance_witness :
    (⟨[("x", Json.str "oops"),
        ("y", Json.obj [("error", Json.str "boom")])], true⟩ :
      CacheState).data.lookup "x" = some (Json.str "oops") ∧
    getTasksForJobCode StoreBehavior.unconfigured
        ⟨[("x", Json.str "oops"),
          ("y", Json.obj [("error", Json.str "boom")])], true⟩ "J" "x" =
      (Json.obj [("job_code_filter", Json.str "J"),
        ("occupation_filter", Json.str "x"),
        ("total_tasks", Json.num 0), ("tasks", Json.arr [])],
        ⟨[("x", Json.str "oops"),
          ("y", Json.obj [("error", Json.str "boom")])], true⟩, 0) ∧
    getTasksForJobCode StoreBehavior.unconfigured
        ⟨[("x", Json.str "oops"),
          ("y", Json.obj [("error", Json.str "boom")])], true⟩ "J" "y" =
      (Json.obj [("error", Json.str "boom")],
        ⟨[("x", Json.str "oops"),
          ("y", Json.obj [("error", Json.str "boom")])], true⟩, 0) :=
  ⟨by decide,
    (facets_shape_tolerance [Json.null] [Json.null] [] "J" "x" "y"
      StoreBehavior.unconfigured
      ⟨[("x", Json.str "oops"), ("y", Json.obj [("error", Json.str "boom")])],
        true⟩
      (Json.str "oops") (Json.obj [("error", Json.str "boom")]) rfl
      (by decide) rfl rfl (by decide) (by decide) (by decide) (by decide)
      (by decide)).2.2.2.2.1,
    (facets_shape_tolerance [Json.null] [Json.null] [] "J" "x" "y"
      StoreBehavior.unconfigured
      ⟨[("x", Json.str "oops"), ("y", Json.obj [("error", Json.str "boom")])],
        true⟩
      (Json.str "oops") (Json.obj [("error", Json.str "boom")]) rfl
      (by decide) rfl rfl (by decide) (by decide) (by decide) (by decide)
      (by decide)).2.2.2.2.2⟩

theorem loadStep_threads_length (store : StoreBehavior) (σ σ' : SysState)
    (hstep : LoadStep store σ σ') : σ'.threads.length = σ.threads.length := by
  cases hstep <;> simp

theorem loadStep_preserves (store : StoreBehavior) (c₀ : CacheState)
    (σ σ' : SysState) (hstep : LoadStep store σ σ')
    (hinv : LoadInv store c₀ σ) : LoadInv store c₀ σ' := by
  obtain ⟨h1, h2⟩ := hinv
  cases hstep with
  | fastLoaded c n l₁ l₂ h =>
    exact ⟨fun hf => absurd h (by simp_all), fun _ => h2 h⟩
  | fastUnloaded c n l₁ l₂ h =>
    constructor
    · intro hf
      obtain ⟨hc, hn0, hd⟩ := h1 h
      refine ⟨hc, hn0, ?_⟩
      simp only [List.mem_append, List.mem_cons] at hd ⊢
      rintro (h' | h' | h')
      · exact hd (Or.inl h')
      · exact TPhase.noConfusion h'
      · exact hd (Or.inr (Or.inr h'))
    · intro ht
      exact absurd ht (by simp [h])
  | crit c n l₁ l₂ =>
    by_cases hc : c.isLoaded
    · rw [loadAll_of_loaded store c hc]
      exact ⟨fun hf => absurd hf (by simp [hc]), fun _ => h2 hc⟩
    · obtain ⟨hcc, hn0, _⟩ := h1 (by simpa using hc)
      constructor
      · intro hf
        exact absurd hf (by simp [loadAll_isLoaded])
      · intro _
        simp only at hcc hn0
        subst hcc
        subst hn0
        exact ⟨rfl, by simp⟩

/-- C9: in the interleaving model of any positive number of concurrent
first-time callers of the load trigger over an available store, every
complete execution (all callers returned) performs the store's list
operation exactly once, and leaves the shared cache in the single state the
one executed load built — every caller observes that same final cache. -/
theorem load_runs_once_across_racers (blobs : List String)
    (fetch : String → Option Json) (c₀ : CacheState) (σ : SysState)
    (n : Nat) (hc₀ : c₀.isLoaded = false) (hn : 0 < n)
    (hreach : Relation.ReflTransGen
      (LoadStep (StoreBehavior.available blobs fetch))
      ⟨c₀, 0, List.replicate n TPhase.start⟩ σ)
    (hdone : ∀ p ∈ σ.threads, p = TPhase.done) :
    σ.listCalls = 1 ∧
    σ.cache =
      (loadAllOccupations (StoreBehavior.available blobs fetch) c₀).1 := by
  have key : LoadInv (StoreBehavior.available blobs fetch) c₀ σ ∧
      σ.threads.length = n := by
    clear hdone
    induction hreach with
    | refl =>
      refine ⟨⟨fun _ => ⟨rfl, rfl, ?_⟩, fun h => absurd h (by simp [hc₀])⟩,
        by simp⟩
      simp [List.mem_replicate]
    | tail hab hbc ih =>
      exact ⟨loadStep_preserves _ _ _ _ hbc ih.1,
        by rw [loadStep_threads_length _ _ _ hbc]; exact ih.2⟩
  obtain ⟨⟨hinv1, hinv2⟩, hlen⟩ := key
  have hne : σ.threads ≠ [] := by
    intro h
    rw [h] at hlen
    simp at hlen
    omega
  have hdmem : TPhase.done ∈ σ.threads := by
    cases hth : σ.threads with
    | nil => exact absurd hth hne
    | cons p rest =>
      have := hdone p (by rw [hth]; exact List.mem_cons_self _ _)
      rw [← this]
      exact List.mem_cons_self _ _
  have hld : σ.cache.isLoaded = true := by
    cases hl : σ.cache.isLoaded
    · exact absurd hdmem (hinv1 hl).2.2
    · rfl
  obtain ⟨hcache, hcalls⟩ := hinv2 hld
  refine ⟨?_, hcache⟩
  rw [hcalls]
  simp [loadAllOccupations, hc₀]

/-- Witness for `load_runs_once_across_racers`: one caller starting on a
fresh cache steps through the unloaded fast-path check and the critical
section, and ends with one list call and the loaded cache. -/
theorem load_runs_once_across_racers_witness :
    (⟨(loadAllOccupations (StoreBehavior.available ["a.json"] fetchOk)
        CacheState.initial).1,
      0 + (loadAllOccupations (StoreBehavior.available ["a.json"] fetchOk)
        CacheState.initial).2,
      [TPhase.done]⟩ : SysState).listCalls = 1 ∧
    (⟨(loadAllOccupations (StoreBehavior.available ["a.json"] fetchOk)
        CacheState.initial).1,
      0 + (loadAllOccupations (StoreBehavior.available ["a.json"] fetchOk)
        CacheState.initial).2,
      [TPhase.done]⟩ : SysState).cache =
      (loadAllOccupations (StoreBehavior.available ["a.json"] fetchOk)
        CacheState.initial).1 :=
  load_runs_once_across_racers ["a.json"] fetchOk CacheState.initial _ 1 rfl
    (by omega)
    (Relation.ReflTransGen.tail
      (Relation.ReflTransGen.tail Relation.ReflTransGen.refl
        (LoadStep.fastUnloaded CacheState.initial 0 [] [] rfl))
      (LoadStep.crit CacheState.initial 0 [] []))
    (by intro p hp; simpa using hp)

end NtgOcc
